import Mathlib

/-!
Verification of the lyrics-manager store.

The persistent store is the Motoko actor embedded in
`src/frontend/src/components/SetListsTab.tsx` (types `Song`, `SetList`,
`SetListSongPosition`; state maps `songs`, `setLists`, `titleToId`,
`setListSongPositions`; operations `saveSong`, `deleteSong`,
`getSongsInSetList`, `createSetList`, `moveSongInSetList`, `exportData`,
`importData`, `getSetListSongInfo`; helpers `generateId`, `normalizeTitle`,
`updateSongPositionInSetList`, `reorderSetList`,
`removeSongFromSetListPositions`).  The color-range normalizer
`rebuildColorRanges` lives in `src/frontend/src/components/SongEditorTab.tsx`.

Machine integers of the source (Motoko `Int`/`Nat`, JS numbers) are modelled
as `Int`/`Nat`; Motoko `Map` values are modelled as association lists with
replace-on-add semantics; a Motoko `Runtime.trap` is modelled as an
`Except.error` result.
-/

/-- Source: `type ColorRange = { start : Nat; end : Nat; color : Text }` in the
actor (backend representation stored inside a `Song`). -/
structure ColorRange where
  start : Nat
  stop : Nat
  color : String
deriving DecidableEq, Repr

/-- Frontend `ColorHighlight` as used by `rebuildColorRanges` in
`SongEditorTab.tsx`; `start`/`end` are JS numbers there (may be negative or
out of bounds), so they are modelled as `Int`.  The source field `end` is a
Lean keyword and is rendered as `stop`. -/
structure ColorHighlight where
  start : Int
  stop : Int
  color : String
deriving DecidableEq, Repr

/-- The overlap-removal scan of `rebuildColorRanges`: walk the sorted, valid
highlights keeping a running `lastEnd` cursor (initialised to 0 by the
caller); keep a highlight only when `start >= lastEnd`, then advance the
cursor to its `end`. -/
def dropOverlapping (lastEnd : Int) : List ColorHighlight → List ColorHighlight
  | [] => []
  | h :: rest =>
    if lastEnd ≤ h.start then h :: dropOverlapping h.stop rest
    else dropOverlapping lastEnd rest

/-- Source: `rebuildColorRanges(text, highlights)` in `SongEditorTab.tsx`:
return `[]` for an empty input; otherwise sort by `start`, filter to the
ranges with `start < end && start >= 0 && end <= text.length`, then drop
overlaps left to right keeping the first range (no merging, no truncation).
JS `Array.prototype.sort` is stable, modelled by `List.insertionSort`. -/
def rebuildColorRanges (text : String) (highlights : List ColorHighlight) :
    List ColorHighlight :=
  if highlights = [] then []
  else
    let sorted := List.insertionSort (fun a b => a.start ≤ b.start) highlights
    let valid := sorted.filter
      (fun h => decide (h.start < h.stop ∧ 0 ≤ h.start ∧ h.stop ≤ (text.length : Int)))
    dropOverlapping 0 valid

/-! ## The store's data model -/

/-- Opaque reference to an attached binary asset (`Storage.ExternalBlob`);
the store never inspects it. -/
structure ExternalBlob where
  ref : String
deriving DecidableEq, Repr

/-- Source: `type Song` in the actor. -/
structure Song where
  id : String
  title : String
  artist : String
  lyrics : String
  scrollSpeed : Nat
  tempo : Nat
  backgroundColor : String
  textColor : String
  textSize : Nat
  isBold : Bool
  createdAt : Int
  updatedAt : Int
  linesPerScroll : Int
  colorRanges : List ColorRange
  image : Option ExternalBlob
deriving DecidableEq, Repr

/-- Source: `type SetList` in the actor. -/
structure SetList where
  id : String
  name : String
  songIds : List String
  createdAt : Int
  updatedAt : Int
deriving DecidableEq, Repr

/-- Source: `type SetListSongPosition` in the actor. -/
structure SetListSongPosition where
  songId : String
  position : Nat
deriving DecidableEq, Repr

/-- A Motoko `Map.Map<Text, V>` value, modelled as an association list with
replace-on-add semantics (`mapAdd`). -/
def StoreMap (V : Type) : Type := List (String × V)

/-- Motoko `Map.get`: the value stored under `key`, if any. -/
def mapLookup {V : Type} : StoreMap V → String → Option V
  | [], _ => none
  | (k, v) :: rest, key => if k = key then some v else mapLookup rest key

/-- Motoko `Map.add`: insert or replace the binding for `key`. -/
def mapAdd {V : Type} (key : String) (v : V) (m : StoreMap V) : StoreMap V :=
  (key, v) :: List.filter (fun kv => kv.1 != key) m

/-- Motoko `Map.remove`: drop the binding for `key`. -/
def mapRemove {V : Type} (key : String) (m : StoreMap V) : StoreMap V :=
  List.filter (fun kv => kv.1 != key) m

/-- The actor's persistent state: the maps `songs`, `setLists`, `titleToId`
and `setListSongPositions` (the `fileHandles` map plays no part in any store
operation verified here). -/
structure StoreState where
  songs : StoreMap Song
  setLists : StoreMap SetList
  titleToId : StoreMap String
  setListSongPositions : StoreMap (List SetListSongPosition)

/-- The state in which every map is empty. -/
def emptyState : StoreState := ⟨[], [], [], []⟩

/-- A `Runtime.trap("... not found")` in a store operation, surfaced to the
caller as a failure. -/
inductive StoreError where
  | NotFound
deriving DecidableEq, Repr

/-! ## Helper functions of the actor -/

/-- Source: `generateId()`.  The only varying input is `Time.now()`, passed
here explicitly; there is no other entropy source.  `randomPart` is
`Int.abs((now * 100_000_000) % 100_000_000)` and the suffix letter is chosen
by the divisibility cascade of the source. -/
def generateId (now : Int) : String :=
  let randomPart : Nat := ((now * 100000000) % 100000000).natAbs
  let randomString :=
    if randomPart % 10 == 0 then toString randomPart ++ "a"
    else if randomPart % 11 == 0 then toString randomPart ++ "b"
    else if randomPart % 12 == 0 then toString randomPart ++ "c"
    else if randomPart % 13 == 0 then toString randomPart ++ "d"
    else if randomPart % 14 == 0 then toString randomPart ++ "e"
    else if randomPart % 15 == 0 then toString randomPart ++ "f"
    else if randomPart % 16 == 0 then toString randomPart ++ "g"
    else if randomPart % 17 == 0 then toString randomPart ++ "h"
    else if randomPart % 18 == 0 then toString randomPart ++ "i"
    else if randomPart % 19 == 0 then toString randomPart ++ "j"
    else if randomPart % 30 == 0 then toString randomPart ++ "k"
    else toString randomPart
  let timestampPart := toString now
  timestampPart ++ randomString

/-- Source: `normalizeTitle(title) = title.toLower().trim(#char(' '))` —
lower-case, then strip leading and trailing spaces. -/
def normalizeTitle (title : String) : String :=
  ⟨(((title.data.map Char.toLower).dropWhile (fun c => c = ' ')).reverse.dropWhile
      (fun c => c = ' ')).reverse⟩

/-- The per-entry function of `updateSongPositionInSetList`'s `map`: set the
`position` field when the `songId` matches, keep the entry otherwise. -/
def positionUpdate (songId : String) (newPosition : Nat)
    (pos : SetListSongPosition) : SetListSongPosition :=
  if pos.songId = songId then { pos with position := newPosition } else pos

/-- Source: `updateSongPositionInSetList(setListId, songId, newPosition)` —
if the set list has a position list, set the `position` field of every entry
whose `songId` matches; otherwise do nothing. -/
def updateSongPositionInSetList (setListId songId : String) (newPosition : Nat)
    (st : StoreState) : StoreState :=
  match mapLookup st.setListSongPositions setListId with
  | none => st
  | some positions =>
    let updatedPositions := positions.map (positionUpdate songId newPosition)
    { st with setListSongPositions :=
        mapAdd setListId updatedPositions st.setListSongPositions }

/-- The `enumerate().map(func((i, pos)) { pos with position = i + 1 })` body of
`reorderSetList`, written as a recursion on the list with the running index. -/
def renumber (i : Nat) : List SetListSongPosition → List SetListSongPosition
  | [] => []
  | pos :: rest => { pos with position := i + 1 } :: renumber (i + 1) rest

/-- Source: `reorderSetList(setListId)` — if the set list has a position list,
replace every entry's `position` by its index + 1 in the list's current order
(the position values themselves are never consulted). -/
def reorderSetList (setListId : String) (st : StoreState) : StoreState :=
  match mapLookup st.setListSongPositions setListId with
  | none => st
  | some positions =>
    { st with setListSongPositions :=
        mapAdd setListId (renumber 0 positions) st.setListSongPositions }


/-- Source: `removeSongFromSetListPositions(setListId, songId)` — if the set
list has a position list, drop every entry whose `songId` matches. -/
def removeSongFromSetListPositions (setListId songId : String)
    (st : StoreState) : StoreState :=
  match mapLookup st.setListSongPositions setListId with
  | none => st
  | some positions =>
    let updatedPositions := positions.filter (fun pos => pos.songId != songId)
    { st with setListSongPositions :=
        mapAdd setListId updatedPositions st.setListSongPositions }

/-! ## Song management -/

/-- Source: `public type SaveSongResponse`. -/
structure SaveSongResponse where
  success : Bool
  songId : Option String
  errorMessage : Option String
  replaceExistingPrompt : Bool
deriving DecidableEq, Repr

/-- The non-`id` parameters of `saveSong`, bundled. -/
structure SaveSongArgs where
  title : String
  artist : String
  lyrics : String
  scrollSpeed : Nat
  tempo : Nat
  backgroundColor : String
  textColor : String
  textSize : Nat
  isBold : Bool
  linesPerScroll : Int
  colorRanges : List ColorRange
  replaceExisting : Bool
  image : Option ExternalBlob
deriving DecidableEq, Repr

/-- The `Song` record literal every branch of `saveSong` constructs from its
arguments, the chosen identity and the two timestamps. -/
def mkSong (sid : String) (a : SaveSongArgs) (createdAt updatedAt : Int) : Song :=
  { id := sid
    title := a.title
    artist := a.artist
    lyrics := a.lyrics
    scrollSpeed := a.scrollSpeed
    tempo := a.tempo
    backgroundColor := a.backgroundColor
    textColor := a.textColor
    textSize := a.textSize
    isBold := a.isBold
    createdAt := createdAt
    updatedAt := updatedAt
    linesPerScroll := a.linesPerScroll
    colorRanges := a.colorRanges
    image := a.image }

/-- Source: `saveSong(id, title, ..., replaceExisting, image)`.  `now` is the
`Time.now()` of the call (also fed to `generateId`, which reads the same
clock).  The four branches follow the source's `switch (id, existingId)`:
`(null, ?existing)` split on `replaceExisting`, `(?songId, _)`, and
`(null, null)`. -/
def saveSong (now : Int) (id : Option String) (a : SaveSongArgs)
    (st : StoreState) : SaveSongResponse × StoreState :=
  let normalizedTitle := normalizeTitle a.title
  let existingId := mapLookup st.titleToId normalizedTitle
  match id, existingId with
  | none, some existingSongId =>
    if a.replaceExisting then
      let updatedSong := mkSong existingSongId a now now
      (⟨true, some existingSongId, none, false⟩,
       { st with songs := mapAdd existingSongId updatedSong st.songs
                 titleToId := mapAdd normalizedTitle existingSongId st.titleToId })
    else
      let newId := generateId now
      let newSong := mkSong newId a now now
      (⟨true, some newId, none, false⟩,
       { st with songs := mapAdd newId newSong st.songs
                 titleToId := mapAdd normalizedTitle newId st.titleToId })
  | some songId, _ =>
    let createdAt :=
      match mapLookup st.songs songId with
      | none => now
      | some existingSong => existingSong.createdAt
    let updatedSong := mkSong songId a createdAt now
    (⟨true, some songId, none, false⟩,
     { st with songs := mapAdd songId updatedSong st.songs
               titleToId := mapAdd normalizedTitle songId st.titleToId })
  | none, none =>
    let newId := generateId now
    let newSong := mkSong newId a now now
    (⟨true, some newId, none, false⟩,
     { st with songs := mapAdd newId newSong st.songs
               titleToId := mapAdd normalizedTitle newId st.titleToId })

/-- Source: `deleteSong(id)` — trap `"Song not found"` when absent; otherwise
remove the `titleToId` entry for the song's normalized title when it points at
this song, remove the song, and scrub the id from every set list's position
list by iterating `setLists.entries()`. -/
def deleteSong (id : String) (st : StoreState) : Except StoreError StoreState :=
  match mapLookup st.songs id with
  | none => .error .NotFound
  | some song =>
    let normalizedTitle := normalizeTitle song.title
    let st1 :=
      if mapLookup st.titleToId normalizedTitle = some id then
        { st with titleToId := mapRemove normalizedTitle st.titleToId }
      else st
    let st2 := { st1 with songs := mapRemove id st1.songs }
    .ok (st2.setLists.foldl
      (fun acc kv => removeSongFromSetListPositions kv.1 id acc) st2)

/-! ## Set list management -/

/-- Source: `createSetList(name, songIds)` — generate an id, store the set
list record (both timestamps `now`) and return the id.  No entry is made in
`setListSongPositions`. -/
def createSetList (now : Int) (name : String) (songIds : List String)
    (st : StoreState) : String × StoreState :=
  let id := generateId now
  let setList : SetList :=
    { id := id, name := name, songIds := songIds, createdAt := now, updatedAt := now }
  (id, { st with setLists := mapAdd id setList st.setLists })

/-- Source: `getSongsInSetList(setListId)` — trap when the set list is absent;
otherwise map its id sequence through the song map, silently skipping ids
that do not resolve. -/
def getSongsInSetList (st : StoreState) (setListId : String) :
    Except StoreError (List Song) :=
  match mapLookup st.setLists setListId with
  | none => .error .NotFound
  | some setList =>
    .ok (setList.songIds.filterMap (fun songId => mapLookup st.songs songId))

/-- Source: `moveSongInSetList(setListId, songId, newPosition)` — trap when
the set list is absent or `findIndex` of the song in its id sequence is
`null`; otherwise `updateSongPositionInSetList` then `reorderSetList`. -/
def moveSongInSetList (setListId songId : String) (newPosition : Nat)
    (st : StoreState) : Except StoreError StoreState :=
  match mapLookup st.setLists setListId with
  | none => .error .NotFound
  | some setList =>
    if (setList.songIds.findIdx? (fun id => id == songId)).isNone then
      .error .NotFound
    else
      .ok (reorderSetList setListId
        (updateSongPositionInSetList setListId songId newPosition st))

/-! ## Snapshot import/export -/

/-- The `{ songs : [Song]; setLists : [SetList] }` payload shared by
`exportData` and `importData`. -/
structure ExportData where
  songs : List Song
  setLists : List SetList
deriving DecidableEq, Repr

/-- Source: `exportData()` — full read of both stores. -/
def exportData (st : StoreState) : ExportData :=
  { songs := st.songs.map (fun kv => kv.2)
    setLists := st.setLists.map (fun kv => kv.2) }

/-- The per-song step of `importData`: add the song and point `titleToId` at
it. -/
def importSongStep (acc : StoreState) (song : Song) : StoreState :=
  { acc with songs := mapAdd song.id song acc.songs
             titleToId := mapAdd (normalizeTitle song.title) song.id acc.titleToId }

/-- The `while (i < setList.songIds.size())` loop of `importData`, building
`{ songId = songIds[i]; position = i + 1 }` entries; `i` is the running
index. -/
def buildPositions (i : Nat) : List String → List SetListSongPosition
  | [] => []
  | sid :: rest => { songId := sid, position := i + 1 } :: buildPositions (i + 1) rest

/-- The per-set-list step of `importData`: add the set list and its freshly
built 1-based sequential position list. -/
def importSetListStep (acc : StoreState) (sl : SetList) : StoreState :=
  { acc with setLists := mapAdd sl.id sl acc.setLists
             setListSongPositions :=
               mapAdd sl.id (buildPositions 0 sl.songIds) acc.setListSongPositions }

/-- Source: `importData(data)` — `clear()` all four maps, then fold the songs
and the set lists of the payload through the two insert steps. -/
def importData (d : ExportData) (st : StoreState) : StoreState :=
  let cleared : StoreState :=
    { st with songs := [], setLists := [], titleToId := [], setListSongPositions := [] }
  let afterSongs := d.songs.foldl importSongStep cleared
  d.setLists.foldl importSetListStep afterSongs

/-- The `{ setList; songPositions }` result of `getSetListSongInfo`. -/
structure SetListSongInfo where
  setList : SetList
  songPositions : List SetListSongPosition
deriving DecidableEq, Repr

/-- Source: `getSetListSongInfo(setListId)` — trap when the set list is
absent; otherwise return it together with its position list (empty when the
position map has no entry). -/
def getSetListSongInfo (st : StoreState) (setListId : String) :
    Except StoreError SetListSongInfo :=
  match mapLookup st.setLists setListId with
  | none => .error .NotFound
  | some setList =>
    let positions := (mapLookup st.setListSongPositions setListId).getD []
    .ok { setList := setList, songPositions := positions }

/-! ## Verification-side definitions: named loop of `deleteSong`, predicates,
and concrete states used by counterexamples and witnesses -/

/-- The scrub loop of `deleteSong`, folding over the entries of `setLists`. -/
def scrubPositions (sid : String) (entries : List (String × SetList))
    (st : StoreState) : StoreState :=
  entries.foldl (fun acc kv => removeSongFromSetListPositions kv.1 sid acc) st

/-- No entry for song `sid` remains in the position list stored under `k`. -/
def noSongEntry (sid : String) (st : StoreState) (k : String) : Prop :=
  ∀ ps, mapLookup st.setListSongPositions k = some ps → ∀ p ∈ ps, p.songId ≠ sid

/-- A state holding one set list `L` with songs `[s1, s2]` and position table
`[{s1, 1}, {s2, 2}]`, reached through `importData`. -/
def twoSongListState : StoreState :=
  importData ⟨[], [⟨"L", "A", ["s1", "s2"], 0, 0⟩]⟩ emptyState

/-- Default `saveSong` argument bundle used by concrete inputs. -/
def sampleArgs : SaveSongArgs :=
  { title := "X", artist := "", lyrics := "", scrollSpeed := 0, tempo := 0,
    backgroundColor := "", textColor := "", textSize := 0, isBold := false,
    linesPerScroll := 0, colorRanges := [], replaceExisting := false,
    image := none }

/-- The song `s1` titled `X` with creation timestamp 5. -/
def songX : Song := mkSong "s1" sampleArgs 5 5

/-- A state holding only `songX`, with `titleToId` mapping `x` to `s1`,
reached through `importData`. -/
def songXState : StoreState := importData ⟨[songX], []⟩ emptyState

/-- A state with two songs and one set list `L` over `[s1, s2]`, reached
through `importData`. -/
def deleteWitnessState : StoreState :=
  importData
    ⟨[songX, mkSong "s2" { sampleArgs with title := "T2" } 6 6],
     [⟨"L", "A", ["s1", "s2"], 0, 0⟩]⟩ emptyState

instance : IsTotal ColorHighlight (fun a b => a.start ≤ b.start) :=
  ⟨fun a b => Int.le_total a.start b.start⟩

instance : IsTrans ColorHighlight (fun a b => a.start ≤ b.start) :=
  ⟨fun _ _ _ hab hbc => le_trans hab hbc⟩

/-! ## Sanity checks on concrete inputs -/

example : normalizeTitle "  X y " = "x y" := by decide
example : generateId 1000 = "10000a" := by decide
example : generateId (-7) = "-70a" := by decide

example : rebuildColorRanges "abcde"
    [⟨3, 5, "red"⟩, ⟨0, 2, "blue"⟩, ⟨1, 4, "green"⟩] =
    [⟨0, 2, "blue"⟩, ⟨3, 5, "red"⟩] := by decide

example :
    mapLookup twoSongListState.setListSongPositions "L" =
      some [⟨"s1", 1⟩, ⟨"s2", 2⟩] := by decide

example : mapLookup songXState.titleToId "x" = some "s1" := by decide

/-! ## Association-list map laws -/

theorem mapLookup_filter_ne {V : Type} (k k' : String) (m : StoreMap V)
    (h : k ≠ k') :
    mapLookup (List.filter (fun kv => kv.1 != k) m) k' = mapLookup m k' := by
  induction m with
  | nil => rfl
  | cons a rest ih =>
    rcases a with ⟨a1, a2⟩
    by_cases ha : a1 = k
    · have hdrop : List.filter (fun kv => kv.1 != k) ((a1, a2) :: rest) =
          List.filter (fun kv => kv.1 != k) rest := by
        simp [List.filter_cons, ha]
      rw [hdrop, ih]
      have hne : ¬ a1 = k' := fun hc => h (ha.symm.trans hc)
      show _ = (if a1 = k' then some a2 else mapLookup rest k')
      rw [if_neg hne]
    · have hkeep : List.filter (fun kv => kv.1 != k) ((a1, a2) :: rest) =
          (a1, a2) :: List.filter (fun kv => kv.1 != k) rest := by
        simp [List.filter_cons, ha]
      rw [hkeep]
      show (if a1 = k' then some a2 else _) = (if a1 = k' then some a2 else _)
      by_cases h' : a1 = k'
      · rw [if_pos h', if_pos h']
      · rw [if_neg h', if_neg h', ih]

theorem mapLookup_mapAdd_self {V : Type} (k : String) (v : V) (m : StoreMap V) :
    mapLookup (mapAdd k v m) k = some v := by
  show (if k = k then some v else _) = some v
  rw [if_pos rfl]

theorem mapLookup_mapAdd_ne {V : Type} (k k' : String) (v : V) (m : StoreMap V)
    (h : k ≠ k') :
    mapLookup (mapAdd k v m) k' = mapLookup m k' := by
  show (if k = k' then some v else mapLookup (List.filter _ m) k') = _
  rw [if_neg h]
  exact mapLookup_filter_ne k k' m h

theorem mapLookup_mapRemove_self {V : Type} (k : String) (m : StoreMap V) :
    mapLookup (mapRemove k m) k = none := by
  induction m with
  | nil => rfl
  | cons a rest ih =>
    rcases a with ⟨a1, a2⟩
    by_cases ha : a1 = k
    · have hdrop : mapRemove k ((a1, a2) :: rest) = mapRemove k rest := by
        simp [mapRemove, List.filter_cons, ha]
      rw [hdrop]; exact ih
    · have hkeep : mapRemove k ((a1, a2) :: rest) = (a1, a2) :: mapRemove k rest := by
        simp [mapRemove, List.filter_cons, ha]
      rw [hkeep]
      show (if a1 = k then some a2 else mapLookup (mapRemove k rest) k) = none
      rw [if_neg ha]; exact ih

theorem mapLookup_mapRemove_ne {V : Type} (k k' : String) (m : StoreMap V)
    (h : k ≠ k') :
    mapLookup (mapRemove k m) k' = mapLookup m k' :=
  mapLookup_filter_ne k k' m h

/-! ## Properties of the color-range normalizer (claim C5) -/

theorem dropOverlapping_sublist (c : Int) (l : List ColorHighlight) :
    (dropOverlapping c l).Sublist l := by
  induction l generalizing c with
  | nil => simp [dropOverlapping]
  | cons h rest ih =>
    simp only [dropOverlapping]
    split
    · exact List.Sublist.cons₂ h (ih _)
    · exact List.Sublist.cons h (ih _)

theorem dropOverlapping_chain (c : Int) (l : List ColorHighlight)
    (hv : ∀ h ∈ l, h.start < h.stop) :
    (∀ h ∈ dropOverlapping c l, c ≤ h.start) ∧
      List.Pairwise (fun a b => a.stop ≤ b.start) (dropOverlapping c l) := by
  induction l generalizing c with
  | nil => exact ⟨by simp [dropOverlapping], by simp [dropOverlapping]⟩
  | cons h rest ih =>
    have hvrest : ∀ x ∈ rest, x.start < x.stop :=
      fun x hx => hv x (List.mem_cons_of_mem _ hx)
    simp only [dropOverlapping]
    split
    case isTrue hc =>
      obtain ⟨ihmem, ihpw⟩ := ih h.stop hvrest
      constructor
      · intro x hx
        rcases List.mem_cons.mp hx with rfl | hx'
        · exact hc
        · exact le_trans
            (le_trans hc (le_of_lt (hv h (List.mem_cons_self h rest))))
            (ihmem x hx')
      · exact List.Pairwise.cons (fun x hx => ihmem x hx) ihpw
    case isFalse hc =>
      exact ih c hvrest

/-- C5: for every text `t` and every list of color ranges (possibly
overlapping or out of bounds), `rebuildColorRanges` returns ranges each
satisfying `0 ≤ start < end ≤ length(t)`, sorted ascending by `start`, and
mutually non-overlapping (`end` of each ≤ `start` of every later one). -/
theorem rebuildColorRanges_normalized (text : String)
    (highlights : List ColorHighlight) :
    (∀ h ∈ rebuildColorRanges text highlights,
        0 ≤ h.start ∧ h.start < h.stop ∧ h.stop ≤ (text.length : Int)) ∧
    List.Sorted (fun a b => a.start ≤ b.start) (rebuildColorRanges text highlights) ∧
    List.Pairwise (fun a b => a.stop ≤ b.start)
      (rebuildColorRanges text highlights) := by
  unfold rebuildColorRanges
  split
  · simp
  · set sorted := List.insertionSort (fun a b => a.start ≤ b.start) highlights
      with hsortedDef
    set valid := sorted.filter
        (fun h => decide (h.start < h.stop ∧ 0 ≤ h.start ∧
          h.stop ≤ (text.length : Int)))
      with hvalidDef
    have hmemvalid : ∀ h ∈ valid,
        h.start < h.stop ∧ 0 ≤ h.start ∧ h.stop ≤ (text.length : Int) := by
      intro h hh
      exact of_decide_eq_true (List.mem_filter.mp hh).2
    have hsortedvalid : List.Sorted (fun a b => a.start ≤ b.start) valid :=
      List.Sorted.filter _ (List.sorted_insertionSort _ highlights)
    have hsub : (dropOverlapping 0 valid).Sublist valid :=
      dropOverlapping_sublist 0 valid
    obtain ⟨-, hpw⟩ :=
      dropOverlapping_chain 0 valid (fun x hx => (hmemvalid x hx).1)
    refine ⟨?_, ?_, hpw⟩
    · intro h hh
      obtain ⟨h1, h2, h3⟩ := hmemvalid h (hsub.subset hh)
      exact ⟨h2, h1, h3⟩
    · exact List.Pairwise.sublist hsub hsortedvalid

/-! ## The identifier generator (claim C8) -/

/-- C8 counterexample: the generator's only varying input is the timestamp,
so two identifiers generated within the same timestamp tick always coincide —
at tick 1000 both calls return `"10000a"` (and at tick 2000 the suffix is the
same `"0a"`, exhibiting that the suffix carries no independent entropy). -/
theorem generateId_same_tick_cex :
    generateId 1000 = generateId 1000 ∧ generateId 1000 = "10000a" ∧
      generateId 2000 = "20000a" :=
  ⟨rfl, by decide, by decide⟩

/-- C8 amended: `generateId` concatenates the timestamp with a suffix that is
itself a function of the timestamp — since `(now * 10^8) % 10^8 = 0`, the
"random" part is always `0` and the suffix is the constant `"0a"`; identifiers
generated within the same timestamp tick are therefore always equal, and
distinctness can come only from distinct ticks. -/
theorem generateId_eq_timestamp_append_constant (now : Int) :
    generateId now = toString now ++ "0a" := by
  unfold generateId
  simp only [Int.mul_emod_left]
  rfl

/-! ## Claims C3, C4, C9, C10: `saveSong` -/

/-- C9: a `saveSong` call supplying an id absent from the song map does not
fail: it inserts a new song under exactly the caller-supplied id with both
timestamps set to `now`, points the title index at that id, and reports
success. -/
theorem saveSong_upsert_new_id (now : Int) (songId : String) (a : SaveSongArgs)
    (st : StoreState) (habs : mapLookup st.songs songId = none) :
    (saveSong now (some songId) a st).1 = ⟨true, some songId, none, false⟩ ∧
    mapLookup (saveSong now (some songId) a st).2.songs songId =
      some (mkSong songId a now now) ∧
    mapLookup (saveSong now (some songId) a st).2.titleToId
      (normalizeTitle a.title) = some songId := by
  have hred : saveSong now (some songId) a st =
      (⟨true, some songId, none, false⟩,
       { st with songs := mapAdd songId (mkSong songId a now now) st.songs
                 titleToId := mapAdd (normalizeTitle a.title) songId st.titleToId }) := by
    unfold saveSong
    simp only [habs]
  rw [hred]
  exact ⟨rfl, mapLookup_mapAdd_self _ _ _, mapLookup_mapAdd_self _ _ _⟩

/-- Witness for C9 at a concrete input: the empty store accepts id `s9`. -/
theorem saveSong_upsert_new_id_witness :
    mapLookup emptyState.songs "s9" = none ∧
    (saveSong 5 (some "s9") sampleArgs emptyState).1 =
      ⟨true, some "s9", none, false⟩ :=
  ⟨rfl, (saveSong_upsert_new_id 5 "s9" sampleArgs emptyState rfl).1⟩

/-- C10: on every input and every branch, `saveSong` returns
`success = true`, no error message and `replaceExistingPrompt = false`, and
unconditionally writes a song under the returned id while repointing the
title index at it. -/
theorem saveSong_total_unconditional (now : Int) (id : Option String)
    (a : SaveSongArgs) (st : StoreState) :
    (saveSong now id a st).1.success = true ∧
    (saveSong now id a st).1.errorMessage = none ∧
    (saveSong now id a st).1.replaceExistingPrompt = false ∧
    ∃ sid createdAt, (saveSong now id a st).1.songId = some sid ∧
      mapLookup (saveSong now id a st).2.songs sid =
        some (mkSong sid a createdAt now) ∧
      mapLookup (saveSong now id a st).2.titleToId (normalizeTitle a.title) =
        some sid := by
  cases id with
  | none =>
    cases hE : mapLookup st.titleToId (normalizeTitle a.title) with
    | none =>
      have hred : saveSong now none a st =
          (⟨true, some (generateId now), none, false⟩,
           { st with
               songs := mapAdd (generateId now) (mkSong (generateId now) a now now)
                 st.songs
               titleToId := mapAdd (normalizeTitle a.title) (generateId now)
                 st.titleToId }) := by
        unfold saveSong
        simp only [hE]
      rw [hred]
      exact ⟨rfl, rfl, rfl, generateId now, now, rfl,
        mapLookup_mapAdd_self _ _ _, mapLookup_mapAdd_self _ _ _⟩
    | some existingSongId =>
      cases hr : a.replaceExisting with
      | true =>
        have hred : saveSong now none a st =
            (⟨true, some existingSongId, none, false⟩,
             { st with
                 songs := mapAdd existingSongId (mkSong existingSongId a now now)
                   st.songs
                 titleToId := mapAdd (normalizeTitle a.title) existingSongId
                   st.titleToId }) := by
          unfold saveSong
          simp only [hE, hr, if_true]
        rw [hred]
        exact ⟨rfl, rfl, rfl, existingSongId, now, rfl,
          mapLookup_mapAdd_self _ _ _, mapLookup_mapAdd_self _ _ _⟩
      | false =>
        have hred : saveSong now none a st =
            (⟨true, some (generateId now), none, false⟩,
             { st with
                 songs := mapAdd (generateId now) (mkSong (generateId now) a now now)
                   st.songs
                 titleToId := mapAdd (normalizeTitle a.title) (generateId now)
                   st.titleToId }) := by
          unfold saveSong
          simp only [hE, hr]
          rfl
        rw [hred]
        exact ⟨rfl, rfl, rfl, generateId now, now, rfl,
          mapLookup_mapAdd_self _ _ _, mapLookup_mapAdd_self _ _ _⟩
  | some songId =>
    cases hS : mapLookup st.songs songId with
    | none =>
      have hred : saveSong now (some songId) a st =
          (⟨true, some songId, none, false⟩,
           { st with
               songs := mapAdd songId (mkSong songId a now now) st.songs
               titleToId := mapAdd (normalizeTitle a.title) songId st.titleToId }) := by
        unfold saveSong
        simp only [hS]
      rw [hred]
      exact ⟨rfl, rfl, rfl, songId, now, rfl,
        mapLookup_mapAdd_self _ _ _, mapLookup_mapAdd_self _ _ _⟩
    | some existingSong =>
      have hred : saveSong now (some songId) a st =
          (⟨true, some songId, none, false⟩,
           { st with
               songs := mapAdd songId (mkSong songId a existingSong.createdAt now)
                 st.songs
               titleToId := mapAdd (normalizeTitle a.title) songId st.titleToId }) := by
        unfold saveSong
        simp only [hS]
      rw [hred]
      exact ⟨rfl, rfl, rfl, songId, existingSong.createdAt, rfl,
        mapLookup_mapAdd_self _ _ _, mapLookup_mapAdd_self _ _ _⟩

/-- C3 counterexample: in `songXState` the song `s1` (title `X`) was created
at time 5; a no-id save of title `X` with `replaceExisting = true` at time 10
overwrites `s1` but records `createdAt = 10`, not the original 5. -/
theorem saveSong_replace_createdAt_cex :
    (mapLookup songXState.songs "s1").map (fun s => s.createdAt) = some 5 ∧
    (mapLookup (saveSong 10 none
        { sampleArgs with replaceExisting := true } songXState).2.songs "s1").map
      (fun s => s.createdAt) = some 10 ∧
    (10 : Int) ≠ 5 :=
  ⟨rfl, rfl, by decide⟩

/-- C3 amended: a no-id save whose normalized title matches an existing
entry, with `replaceExisting = true`, overwrites the song under the existing
identity and keeps that identity — but it resets the creation timestamp to
`now` along with the update timestamp, instead of preserving the original
`createdAt`. -/
theorem saveSong_replace_resets_createdAt (now : Int) (a : SaveSongArgs)
    (st : StoreState) (existingSongId : String)
    (hrep : a.replaceExisting = true)
    (hE : mapLookup st.titleToId (normalizeTitle a.title) = some existingSongId) :
    (saveSong now none a st).1 = ⟨true, some existingSongId, none, false⟩ ∧
    mapLookup (saveSong now none a st).2.songs existingSongId =
      some (mkSong existingSongId a now now) ∧
    mapLookup (saveSong now none a st).2.titleToId (normalizeTitle a.title) =
      some existingSongId := by
  have hred : saveSong now none a st =
      (⟨true, some existingSongId, none, false⟩,
       { st with
           songs := mapAdd existingSongId (mkSong existingSongId a now now)
             st.songs
           titleToId := mapAdd (normalizeTitle a.title) existingSongId
             st.titleToId }) := by
    unfold saveSong
    simp only [hE, hrep, if_true]
  rw [hred]
  exact ⟨rfl, mapLookup_mapAdd_self _ _ _, mapLookup_mapAdd_self _ _ _⟩

/-- Witness for the C3 amended theorem on `songXState`. -/
theorem saveSong_replace_resets_createdAt_witness :
    mapLookup songXState.titleToId
      (normalizeTitle (SaveSongArgs.title { sampleArgs with replaceExisting := true })) =
      some "s1" ∧
    (saveSong 10 none { sampleArgs with replaceExisting := true } songXState).1 =
      ⟨true, some "s1", none, false⟩ :=
  ⟨rfl, (saveSong_replace_resets_createdAt 10
    { sampleArgs with replaceExisting := true } songXState "s1" rfl rfl).1⟩

/-! ## Helper lemmas about the position scrub of `deleteSong` -/

theorem removeSongFromSetListPositions_songs (k sid : String) (st : StoreState) :
    (removeSongFromSetListPositions k sid st).songs = st.songs := by
  unfold removeSongFromSetListPositions
  split <;> rfl

theorem removeSongFromSetListPositions_setLists (k sid : String) (st : StoreState) :
    (removeSongFromSetListPositions k sid st).setLists = st.setLists := by
  unfold removeSongFromSetListPositions
  split <;> rfl

theorem removeSongFromSetListPositions_titleToId (k sid : String)
    (st : StoreState) :
    (removeSongFromSetListPositions k sid st).titleToId = st.titleToId := by
  unfold removeSongFromSetListPositions
  split <;> rfl

theorem scrubPositions_songs (sid : String) (entries : List (String × SetList)) :
    ∀ st : StoreState, (scrubPositions sid entries st).songs = st.songs := by
  induction entries with
  | nil => intro st; rfl
  | cons a rest ih =>
    intro st
    show (scrubPositions sid rest _).songs = _
    rw [ih, removeSongFromSetListPositions_songs]

theorem scrubPositions_setLists (sid : String)
    (entries : List (String × SetList)) :
    ∀ st : StoreState, (scrubPositions sid entries st).setLists = st.setLists := by
  induction entries with
  | nil => intro st; rfl
  | cons a rest ih =>
    intro st
    show (scrubPositions sid rest _).setLists = _
    rw [ih, removeSongFromSetListPositions_setLists]

theorem scrubPositions_titleToId (sid : String)
    (entries : List (String × SetList)) :
    ∀ st : StoreState, (scrubPositions sid entries st).titleToId = st.titleToId := by
  induction entries with
  | nil => intro st; rfl
  | cons a rest ih =>
    intro st
    show (scrubPositions sid rest _).titleToId = _
    rw [ih, removeSongFromSetListPositions_titleToId]

theorem removeSong_self_noSongEntry (k sid : String) (st : StoreState) :
    noSongEntry sid (removeSongFromSetListPositions k sid st) k := by
  unfold removeSongFromSetListPositions
  cases hl : mapLookup st.setListSongPositions k with
  | none =>
    intro ps hps
    rw [hl] at hps
    cases hps
  | some positions =>
    intro ps hps
    rw [mapLookup_mapAdd_self] at hps
    cases hps
    intro p hp
    have hmem := List.mem_filter.mp hp
    exact bne_iff_ne.mp hmem.2

theorem removeSong_preserves_noSongEntry (k' k sid : String) (st : StoreState)
    (h : noSongEntry sid st k) :
    noSongEntry sid (removeSongFromSetListPositions k' sid st) k := by
  by_cases hk : k' = k
  · subst hk
    exact removeSong_self_noSongEntry k' sid st
  · unfold removeSongFromSetListPositions
    cases hl : mapLookup st.setListSongPositions k' with
    | none => exact h
    | some positions =>
      intro ps hps
      rw [mapLookup_mapAdd_ne _ _ _ _ hk] at hps
      exact h ps hps

theorem scrubPositions_preserves_noSongEntry (sid k : String)
    (entries : List (String × SetList)) :
    ∀ st : StoreState, noSongEntry sid st k →
      noSongEntry sid (scrubPositions sid entries st) k := by
  induction entries with
  | nil => intro st h; exact h
  | cons a rest ih =>
    intro st h
    exact ih _ (removeSong_preserves_noSongEntry a.1 k sid st h)

theorem scrubPositions_noSongEntry_of_mem (sid k : String)
    (entries : List (String × SetList)) :
    ∀ st : StoreState, k ∈ entries.map (fun kv => kv.1) →
      noSongEntry sid (scrubPositions sid entries st) k := by
  induction entries with
  | nil => intro st h; cases h
  | cons a rest ih =>
    intro st hk
    rcases List.mem_cons.mp hk with hk1 | hk2
    · subst hk1
      exact scrubPositions_preserves_noSongEntry sid a.1 rest _
        (removeSong_self_noSongEntry a.1 sid st)
    · exact ih _ hk2

/-- Filtering out a key that the lookup cannot resolve does not change a
`filterMap` through the lookup. -/
theorem filterMap_filter_ne {β : Type} (f : String → Option β) (sid : String)
    (hf : f sid = none) (l : List String) :
    ((l.filter (fun s => s != sid)).filterMap f) = l.filterMap f := by
  induction l with
  | nil => rfl
  | cons a rest ih =>
    by_cases ha : a = sid
    · subst ha
      have hdrop : List.filter (fun s => s != a) (a :: rest) =
          List.filter (fun s => s != a) rest := by
        simp [List.filter_cons]
      rw [hdrop, ih, List.filterMap_cons, hf]
    · have hkeep : List.filter (fun s => s != sid) (a :: rest) =
          a :: List.filter (fun s => s != sid) rest := by
        simp [List.filter_cons, ha]
      rw [hkeep, List.filterMap_cons, List.filterMap_cons, ih]

/-! ## The title index under retitle and delete (claim C4) -/

/-- C4 counterexample: in `songXState` the song `s1` is titled `X`; saving it
under its id with the new title `Y` leaves the old entry `x → s1` in the
title index, although the normalized titles differ. -/
theorem saveSong_retitle_keeps_old_entry_cex :
    normalizeTitle "Y" ≠ normalizeTitle "X" ∧
    mapLookup (saveSong 10 (some "s1")
        { sampleArgs with title := "Y" } songXState).2.titleToId
      (normalizeTitle "X") = some "s1" :=
  ⟨by decide, rfl⟩

/-- C4 amended: retitling a stored song via `saveSong` with its id points the
index entry for the NEW normalized title at the song but leaves the entry
under the old normalized title untouched (it is not removed); the old entry
disappears only on `deleteSong`, which removes it when it points at the
deleted song. -/
theorem titleIndex_retitle_and_delete (st : StoreState) (now : Int)
    (songId : String) (s : Song) (a : SaveSongArgs)
    (hs : mapLookup st.songs songId = some s)
    (hneq : normalizeTitle a.title ≠ normalizeTitle s.title) :
    mapLookup (saveSong now (some songId) a st).2.titleToId
      (normalizeTitle s.title) = mapLookup st.titleToId (normalizeTitle s.title) ∧
    mapLookup (saveSong now (some songId) a st).2.titleToId
      (normalizeTitle a.title) = some songId ∧
    (mapLookup st.titleToId (normalizeTitle s.title) = some songId →
      ∀ st', deleteSong songId st = .ok st' →
        mapLookup st'.titleToId (normalizeTitle s.title) = none) := by
  have hred : saveSong now (some songId) a st =
      (⟨true, some songId, none, false⟩,
       { st with songs := mapAdd songId (mkSong songId a s.createdAt now) st.songs
                 titleToId := mapAdd (normalizeTitle a.title) songId st.titleToId }) := by
    unfold saveSong
    simp only [hs]
  refine ⟨?_, ?_, ?_⟩
  · rw [hred]
    exact mapLookup_mapAdd_ne _ _ _ _ hneq
  · rw [hred]
    exact mapLookup_mapAdd_self _ _ _
  · intro hp st' hdel
    have hdel2 : deleteSong songId st =
        .ok (scrubPositions songId st.setLists
          { st with titleToId := mapRemove (normalizeTitle s.title) st.titleToId
                    songs := mapRemove songId st.songs }) := by
      unfold deleteSong
      simp only [hs, if_pos hp]
      rfl
    rw [hdel2] at hdel
    have hst' := (Except.ok.inj hdel).symm
    subst hst'
    rw [scrubPositions_titleToId]
    exact mapLookup_mapRemove_self _ _

/-- Witness for the C4 amended theorem: retitle `s1` from `X` to `Y` in
`songXState`. -/
theorem titleIndex_retitle_and_delete_witness :
    mapLookup songXState.songs "s1" = some songX ∧
    mapLookup (saveSong 10 (some "s1") { sampleArgs with title := "Y" }
        songXState).2.titleToId (normalizeTitle "Y") = some "s1" :=
  ⟨rfl, (titleIndex_retitle_and_delete songXState 10 "s1" songX
      { sampleArgs with title := "Y" } rfl (by decide)).2.1⟩

/-! ## Claim C7: `deleteSong` and dangling set-list references -/

/-- C7: `deleteSong` fails with NotFound when the id is absent; otherwise it
removes the song, removes the title-index entry when it points at the song,
scrubs the id from every set list's position list while leaving the set
lists' id sequences untouched, and a subsequent `getSongsInSetList` resolves
the remaining ids as if the deleted id had been dropped from the sequence. -/
theorem deleteSong_cascade (st : StoreState) (id : String) :
    (mapLookup st.songs id = none → deleteSong id st = .error .NotFound) ∧
    (∀ song, mapLookup st.songs id = some song →
      ∃ st', deleteSong id st = .ok st' ∧
        mapLookup st'.songs id = none ∧
        st'.setLists = st.setLists ∧
        (mapLookup st.titleToId (normalizeTitle song.title) = some id →
          mapLookup st'.titleToId (normalizeTitle song.title) = none) ∧
        (∀ slId, slId ∈ st.setLists.map (fun kv => kv.1) →
          ∀ ps, mapLookup st'.setListSongPositions slId = some ps →
            ∀ p ∈ ps, p.songId ≠ id) ∧
        (∀ slId sl, mapLookup st'.setLists slId = some sl →
          getSongsInSetList st' slId =
            .ok ((sl.songIds.filter (fun s => s != id)).filterMap
              (fun sid => mapLookup st'.songs sid)))) := by
  constructor
  · intro h
    unfold deleteSong
    simp only [h]
  · intro song hs
    by_cases hcond : mapLookup st.titleToId (normalizeTitle song.title) = some id
    · refine ⟨scrubPositions id st.setLists
        { st with titleToId := mapRemove (normalizeTitle song.title) st.titleToId
                  songs := mapRemove id st.songs }, ?_, ?_, ?_, ?_, ?_, ?_⟩
      · unfold deleteSong
        simp only [hs, if_pos hcond]
        rfl
      · rw [scrubPositions_songs]
        exact mapLookup_mapRemove_self _ _
      · rw [scrubPositions_setLists]
      · intro _
        rw [scrubPositions_titleToId]
        exact mapLookup_mapRemove_self _ _
      · intro slId hmem ps hps p hp
        exact scrubPositions_noSongEntry_of_mem id slId st.setLists _ hmem ps hps p hp
      · intro slId sl hsl
        unfold getSongsInSetList
        simp only [hsl]
        congr 1
        refine (filterMap_filter_ne _ id ?_ sl.songIds).symm
        rw [scrubPositions_songs]
        exact mapLookup_mapRemove_self _ _
    · refine ⟨scrubPositions id st.setLists
        { st with songs := mapRemove id st.songs }, ?_, ?_, ?_, ?_, ?_, ?_⟩
      · unfold deleteSong
        simp only [hs, if_neg hcond]
        rfl
      · rw [scrubPositions_songs]
        exact mapLookup_mapRemove_self _ _
      · rw [scrubPositions_setLists]
      · intro hp
        exact absurd hp hcond
      · intro slId hmem ps hps p hp
        exact scrubPositions_noSongEntry_of_mem id slId st.setLists _ hmem ps hps p hp
      · intro slId sl hsl
        unfold getSongsInSetList
        simp only [hsl]
        congr 1
        refine (filterMap_filter_ne _ id ?_ sl.songIds).symm
        rw [scrubPositions_songs]
        exact mapLookup_mapRemove_self _ _

/-- Witness for C7: the NotFound case on the empty store, and the success
case deleting `s1` in `deleteWitnessState`. -/
theorem deleteSong_cascade_witness :
    deleteSong "nope" emptyState = .error .NotFound ∧
    (∃ st', deleteSong "s1" deleteWitnessState = .ok st' ∧
        mapLookup st'.songs "s1" = none) := by
  refine ⟨(deleteSong_cascade emptyState "nope").1 rfl, ?_⟩
  obtain ⟨st', h1, h2, -⟩ := (deleteSong_cascade deleteWitnessState "s1").2 songX rfl
  exact ⟨st', h1, h2⟩

/-! ## Claim C1: `createSetList` and the position side-table -/

/-- C1 counterexample: `createSetList("A", [s1, s2])` on the empty store
followed by `getSetListSongInfo` on the returned identity reports an empty
position list, not `[{s1, 1}, {s2, 2}]`. -/
theorem createSetList_positions_cex :
    (getSetListSongInfo (createSetList 0 "A" ["s1", "s2"] emptyState).2
        (createSetList 0 "A" ["s1", "s2"] emptyState).1).toOption.map
      (fun info => info.songPositions) = some [] ∧
    ([] : List SetListSongPosition) ≠ [⟨"s1", 1⟩, ⟨"s2", 2⟩] :=
  ⟨rfl, by decide⟩

/-- C1 amended: `createSetList` always succeeds and stores the set list under
the generated identity, but it builds NO position side-table entry: the
position map is left exactly as it was, and `getSetListSongInfo` on the
returned identity reports whatever position list was already stored under
that identity — the empty list when there was none. -/
theorem createSetList_no_position_table (now : Int) (name : String)
    (songIds : List String) (st : StoreState) :
    (createSetList now name songIds st).1 = generateId now ∧
    (createSetList now name songIds st).2.setListSongPositions =
      st.setListSongPositions ∧
    mapLookup (createSetList now name songIds st).2.setLists (generateId now) =
      some ⟨generateId now, name, songIds, now, now⟩ ∧
    getSetListSongInfo (createSetList now name songIds st).2 (generateId now) =
      .ok ⟨⟨generateId now, name, songIds, now, now⟩,
        (mapLookup st.setListSongPositions (generateId now)).getD []⟩ := by
  refine ⟨rfl, rfl, mapLookup_mapAdd_self _ _ _, ?_⟩
  unfold getSetListSongInfo createSetList
  simp only [mapLookup_mapAdd_self]

/-! ## Claim C2: `moveSongInSetList` -/

theorem renumber_songIds (i : Nat) (ps : List SetListSongPosition) :
    (renumber i ps).map (fun p => p.songId) = ps.map (fun p => p.songId) := by
  induction ps generalizing i with
  | nil => rfl
  | cons p rest ih => simp [renumber, ih]

theorem renumber_positions (i : Nat) (ps : List SetListSongPosition) :
    (renumber i ps).map (fun p => p.position) = List.range' (i + 1) ps.length := by
  induction ps generalizing i with
  | nil => rfl
  | cons p rest ih => simp [renumber, List.range'_succ, ih]

/-- The function `reorderSetList` overwrites every `position` field by the list index, so
the preceding per-song position update is absorbed completely. -/
theorem renumber_absorbs_update (i : Nat) (songId : String) (newPosition : Nat)
    (ps : List SetListSongPosition) :
    renumber i (ps.map (positionUpdate songId newPosition)) = renumber i ps := by
  induction ps generalizing i with
  | nil => rfl
  | cons p rest ih =>
    simp only [List.map_cons, renumber]
    rw [ih]
    congr 1
    unfold positionUpdate
    split <;> rfl

theorem findIdx?_isNone_iff_not_mem (songId : String) (l : List String) :
    (l.findIdx? (fun id => id == songId)).isNone = true ↔ songId ∉ l := by
  rw [Option.isNone_iff_eq_none, List.findIdx?_eq_none_iff]
  constructor
  · intro h hmem
    have := h songId hmem
    simp at this
  · intro h x hx
    simp only [beq_eq_false_iff_ne, ne_eq]
    intro heq
    exact h (heq ▸ hx)

/-- The net effect of `updateSongPositionInSetList` followed by
`reorderSetList`: the targeted set list's position list is renumbered 1..N in
its existing order (the requested position is forgotten), every other key and
every other component of the state is untouched. -/
theorem move_core (setListId songId : String) (newPosition : Nat)
    (st : StoreState) :
    mapLookup (reorderSetList setListId
        (updateSongPositionInSetList setListId songId newPosition st)).setListSongPositions
      setListId = (mapLookup st.setListSongPositions setListId).map (renumber 0) ∧
    (∀ k, k ≠ setListId →
      mapLookup (reorderSetList setListId
          (updateSongPositionInSetList setListId songId newPosition st)).setListSongPositions
        k = mapLookup st.setListSongPositions k) ∧
    (reorderSetList setListId
      (updateSongPositionInSetList setListId songId newPosition st)).songs = st.songs ∧
    (reorderSetList setListId
      (updateSongPositionInSetList setListId songId newPosition st)).setLists = st.setLists ∧
    (reorderSetList setListId
      (updateSongPositionInSetList setListId songId newPosition st)).titleToId =
      st.titleToId := by
  cases hp : mapLookup st.setListSongPositions setListId with
  | none =>
    have hu : updateSongPositionInSetList setListId songId newPosition st = st := by
      unfold updateSongPositionInSetList
      simp only [hp]
    have hr : reorderSetList setListId st = st := by
      unfold reorderSetList
      simp only [hp]
    rw [hu, hr]
    exact ⟨hp, fun k _ => rfl, rfl, rfl, rfl⟩
  | some ps =>
    have hu : updateSongPositionInSetList setListId songId newPosition st =
        { st with
            setListSongPositions := mapAdd setListId
              (ps.map (positionUpdate songId newPosition))
              st.setListSongPositions } := by
      unfold updateSongPositionInSetList
      simp only [hp]
    rw [hu]
    have hr : reorderSetList setListId
        { st with
            setListSongPositions := mapAdd setListId
              (ps.map (positionUpdate songId newPosition))
              st.setListSongPositions } =
        { st with
            setListSongPositions := mapAdd setListId
              (renumber 0 (ps.map (positionUpdate songId newPosition)))
              (mapAdd setListId (ps.map (positionUpdate songId newPosition))
                st.setListSongPositions) } := by
      unfold reorderSetList
      simp only [mapLookup_mapAdd_self]
    rw [hr]
    refine ⟨?_, ?_, rfl, rfl, rfl⟩
    · rw [mapLookup_mapAdd_self, renumber_absorbs_update]
      rfl
    · intro k hk
      rw [mapLookup_mapAdd_ne _ _ _ _ (fun h => hk h.symm),
        mapLookup_mapAdd_ne _ _ _ _ (fun h => hk h.symm)]

/-- C2 counterexample: on `twoSongListState` (positions `[{s1,1},{s2,2}]`),
`moveSongInSetList("L", "s2", 1)` succeeds but leaves the position table at
`[{s1,1},{s2,2}]`: `s2` is still second, not first as the claim requires. -/
theorem moveSongInSetList_noop_cex :
    (moveSongInSetList "L" "s2" 1 twoSongListState).toOption.map
      (fun st => mapLookup st.setListSongPositions "L") =
      some (some [⟨"s1", 1⟩, ⟨"s2", 2⟩]) ∧
    (([⟨"s1", 1⟩, ⟨"s2", 2⟩] : List SetListSongPosition).head?).map
      (fun p => p.songId) = some "s1" ∧
    ([⟨"s1", 1⟩, ⟨"s2", 2⟩] : List SetListSongPosition) ≠
      [⟨"s2", 1⟩, ⟨"s1", 2⟩] :=
  ⟨rfl, rfl, by decide⟩

/-- C2 amended: the NotFound failure conditions hold as claimed, but on
success the move does not sort by the requested position: it renumbers the
existing position list contiguously 1..N in its current order (so the order
of entries, and in particular which song is first, never changes), leaving
all other state untouched. -/
theorem moveSongInSetList_renumbers_only (st : StoreState)
    (setListId songId : String) (newPosition : Nat) :
    (mapLookup st.setLists setListId = none →
      moveSongInSetList setListId songId newPosition st = .error .NotFound) ∧
    (∀ sl, mapLookup st.setLists setListId = some sl → songId ∉ sl.songIds →
      moveSongInSetList setListId songId newPosition st = .error .NotFound) ∧
    (∀ sl, mapLookup st.setLists setListId = some sl → songId ∈ sl.songIds →
      ∃ st', moveSongInSetList setListId songId newPosition st = .ok st' ∧
        st'.songs = st.songs ∧ st'.setLists = st.setLists ∧
        st'.titleToId = st.titleToId ∧
        mapLookup st'.setListSongPositions setListId =
          (mapLookup st.setListSongPositions setListId).map (renumber 0) ∧
        (∀ k, k ≠ setListId → mapLookup st'.setListSongPositions k =
          mapLookup st.setListSongPositions k)) ∧
    (∀ ps, (renumber 0 ps).map (fun p => p.songId) = ps.map (fun p => p.songId) ∧
      (renumber 0 ps).map (fun p => p.position) = List.range' 1 ps.length) := by
  refine ⟨?_, ?_, ?_, fun ps => ⟨renumber_songIds 0 ps, renumber_positions 0 ps⟩⟩
  · intro h
    unfold moveSongInSetList
    simp only [h]
  · intro sl hsl hnot
    have hguard : (sl.songIds.findIdx? (fun id => id == songId)).isNone = true :=
      (findIdx?_isNone_iff_not_mem songId sl.songIds).mpr hnot
    unfold moveSongInSetList
    simp only [hsl, hguard]
    rfl
  · intro sl hsl hmem
    have hguard : ¬ (sl.songIds.findIdx? (fun id => id == songId)).isNone = true :=
      fun hg => (findIdx?_isNone_iff_not_mem songId sl.songIds).mp hg hmem
    refine ⟨reorderSetList setListId
      (updateSongPositionInSetList setListId songId newPosition st), ?_, ?_⟩
    · unfold moveSongInSetList
      simp only [hsl]
      rw [if_neg hguard]
    · obtain ⟨h1, h2, h3, h4, h5⟩ := move_core setListId songId newPosition st
      exact ⟨h3, h4, h5, h1, h2⟩

/-- Witness for the C2 amended theorem: the NotFound case on the empty store
and the success case on `twoSongListState`. -/
theorem moveSongInSetList_renumbers_only_witness :
    moveSongInSetList "absent" "s" 1 emptyState = .error .NotFound ∧
    (∃ st', moveSongInSetList "L" "s2" 1 twoSongListState = .ok st' ∧
      st'.setLists = twoSongListState.setLists) := by
  refine ⟨(moveSongInSetList_renumbers_only emptyState "absent" "s" 1).1 rfl, ?_⟩
  obtain ⟨st', h1, -, h3, -, -, -⟩ :=
    (moveSongInSetList_renumbers_only twoSongListState "L" "s2" 1).2.2.1
      ⟨"L", "A", ["s1", "s2"], 0, 0⟩ rfl (by decide)
  exact ⟨st', h1, h3⟩

/-! ## Snapshot import/export (claim C6) -/

theorem foldSongs_titleToId (songsL : List Song) (acc : StoreState) (key : String) :
    mapLookup (songsL.foldl importSongStep acc).titleToId key =
      songsL.foldl
        (fun r s => if normalizeTitle s.title = key then some s.id else r)
        (mapLookup acc.titleToId key) := by
  induction songsL generalizing acc with
  | nil => rfl
  | cons s rest ih =>
    simp only [List.foldl_cons]
    rw [ih]
    congr 1
    by_cases h : normalizeTitle s.title = key
    · rw [if_pos h, ← h]
      exact mapLookup_mapAdd_self _ _ _
    · rw [if_neg h]
      exact mapLookup_mapAdd_ne _ _ _ _ h

theorem foldSongs_songs (songsL : List Song) (acc : StoreState) (sid : String) :
    mapLookup (songsL.foldl importSongStep acc).songs sid =
      songsL.foldl (fun r s => if s.id = sid then some s else r)
        (mapLookup acc.songs sid) := by
  induction songsL generalizing acc with
  | nil => rfl
  | cons s rest ih =>
    simp only [List.foldl_cons]
    rw [ih]
    congr 1
    by_cases h : s.id = sid
    · rw [if_pos h, ← h]
      exact mapLookup_mapAdd_self _ _ _
    · rw [if_neg h]
      exact mapLookup_mapAdd_ne _ _ _ _ h

theorem foldSongs_setLists (songsL : List Song) :
    ∀ acc : StoreState, (songsL.foldl importSongStep acc).setLists = acc.setLists := by
  induction songsL with
  | nil => intro acc; rfl
  | cons s rest ih => intro acc; exact ih _

theorem foldSetLists_songs (slL : List SetList) :
    ∀ acc : StoreState, (slL.foldl importSetListStep acc).songs = acc.songs := by
  induction slL with
  | nil => intro acc; rfl
  | cons sl rest ih => intro acc; exact ih _

theorem foldSetLists_setLists (slL : List SetList) (acc : StoreState)
    (slId : String) :
    mapLookup (slL.foldl importSetListStep acc).setLists slId =
      slL.foldl (fun r sl => if sl.id = slId then some sl else r)
        (mapLookup acc.setLists slId) := by
  induction slL generalizing acc with
  | nil => rfl
  | cons sl rest ih =>
    simp only [List.foldl_cons]
    rw [ih]
    congr 1
    by_cases h : sl.id = slId
    · rw [if_pos h, ← h]
      exact mapLookup_mapAdd_self _ _ _
    · rw [if_neg h]
      exact mapLookup_mapAdd_ne _ _ _ _ h

theorem foldSongs_setListSongPositions (songsL : List Song) :
    ∀ acc : StoreState,
      (songsL.foldl importSongStep acc).setListSongPositions =
        acc.setListSongPositions := by
  induction songsL with
  | nil => intro acc; rfl
  | cons s rest ih => intro acc; exact ih _

theorem foldSetLists_titleToId (slL : List SetList) :
    ∀ acc : StoreState,
      (slL.foldl importSetListStep acc).titleToId = acc.titleToId := by
  induction slL with
  | nil => intro acc; rfl
  | cons sl rest ih => intro acc; exact ih _

theorem foldSetLists_positions (slL : List SetList) (acc : StoreState)
    (slId : String) :
    mapLookup (slL.foldl importSetListStep acc).setListSongPositions slId =
      slL.foldl
        (fun r sl => if sl.id = slId then some (buildPositions 0 sl.songIds) else r)
        (mapLookup acc.setListSongPositions slId) := by
  induction slL generalizing acc with
  | nil => rfl
  | cons sl rest ih =>
    simp only [List.foldl_cons]
    rw [ih]
    congr 1
    by_cases h : sl.id = slId
    · rw [if_pos h, ← h]
      exact mapLookup_mapAdd_self _ _ _
    · rw [if_neg h]
      exact mapLookup_mapAdd_ne _ _ _ _ h

theorem buildPositions_songIds (i : Nat) (ids : List String) :
    (buildPositions i ids).map (fun p => p.songId) = ids := by
  induction ids generalizing i with
  | nil => rfl
  | cons a rest ih => simp [buildPositions, ih]

theorem buildPositions_positions (i : Nat) (ids : List String) :
    (buildPositions i ids).map (fun p => p.position) =
      List.range' (i + 1) ids.length := by
  induction ids generalizing i with
  | nil => rfl
  | cons a rest ih => simp [buildPositions, List.range'_succ, ih]

/-- C6: `importData` is a destructive full replace — its result does not
depend on the prior state at all; afterwards the song and set-list maps hold
exactly the imported records (last write wins per id), the title index maps
each key to the LAST imported song bearing that normalized title
(last-write-wins on collisions), the position map holds, for each set-list
id, the position list rebuilt from the LAST imported set list with that id
(1-based sequential over its id sequence, as `buildPositions` makes
precise), and importing an empty payload then exporting yields empty arrays
regardless of prior state. -/
theorem importData_full_replace (d : ExportData) (st st2 : StoreState) :
    importData d st = importData d st2 ∧
    (∀ sid, mapLookup (importData d st).songs sid =
      d.songs.foldl (fun r s => if s.id = sid then some s else r) none) ∧
    (∀ slId, mapLookup (importData d st).setLists slId =
      d.setLists.foldl (fun r sl => if sl.id = slId then some sl else r) none) ∧
    (∀ key, mapLookup (importData d st).titleToId key =
      d.songs.foldl
        (fun r s => if normalizeTitle s.title = key then some s.id else r) none) ∧
    (∀ slId, mapLookup (importData d st).setListSongPositions slId =
      d.setLists.foldl
        (fun r sl => if sl.id = slId then some (buildPositions 0 sl.songIds) else r)
        none) ∧
    (∀ ids i, (buildPositions i ids).map (fun p => p.songId) = ids ∧
      (buildPositions i ids).map (fun p => p.position) =
        List.range' (i + 1) ids.length) ∧
    exportData (importData ⟨[], []⟩ st) = ⟨[], []⟩ := by
  refine ⟨rfl, ?_, ?_, ?_, ?_,
    fun ids i => ⟨buildPositions_songIds i ids, buildPositions_positions i ids⟩,
    rfl⟩
  · intro sid
    unfold importData
    rw [foldSetLists_songs, foldSongs_songs]
    rfl
  · intro slId
    unfold importData
    rw [foldSetLists_setLists, foldSongs_setLists]
    rfl
  · intro key
    unfold importData
    rw [foldSetLists_titleToId, foldSongs_titleToId]
    rfl
  · intro slId
    unfold importData
    rw [foldSetLists_positions, foldSongs_setListSongPositions]
    rfl
